import Mathlib

/-!
Verification of the Dutch auction settlement engine described in spec.md.
The repository ships the engine's tests (src/tests/test_main.py) and its
abstract interface (src/scripts/definitions.py: `AuctionType`, `NFTType`),
but the engine itself (the `DutchAuction` contract) is not under src/;
every executable definition below is therefore modelled from the spec,
following §3 (data model), §4 (component design), §6 (interfaces) and §7
(error taxonomy), with names taken from the interface in
src/scripts/definitions.py.
-/

namespace EthAuction

/-- Modelled from the spec: the error taxonomy of §7 for the missing
`DutchAuction` contract (`SettlementFailure` is omitted: the settlement
collaborators are modelled as always succeeding, as in every scenario the
claims cover). -/
inductive AuctionError
  | InvalidPrice
  | InvalidDuration
  | InvalidReserve
  | NotOwner
  | ApprovalMissing
  | AlreadyStarted
  | NotLive
  | AuctionOver
  | AlreadySettled
  | InsufficientPayment
  deriving DecidableEq, Repr

/-- Modelled from the spec: the stored lifecycle states of §3/§4.1.
`Ended` is never stored; it is derived lazily by `currentState`. -/
inductive StoredState
  | Created
  | Live
  | Settled
  deriving DecidableEq, Repr

/-- Modelled from the spec: the effective lifecycle states of §4.1
(`currentState` derives `Ended` from `Live` plus elapsed time). -/
inductive EffState
  | Created
  | Live
  | Ended
  | Settled
  deriving DecidableEq, Repr

/-- Modelled from the spec: the sole stateful entity of §3, with the
attribute getters of §6 / src/scripts/definitions.py (`nft`, `nftId`,
`seller`, `startAt`, `duration`, `startingPrice`, `reservePrice`).
Identities (addresses) are opaque comparable principals, modelled as `Nat`.
`addr` is the engine's own identity, the operator the registry must
approve before the auction can start (§4.1, §9). -/
structure DutchAuction where
  nft : Nat
  nftId : Nat
  seller : Nat
  addr : Nat
  startingPrice : Nat
  reservePrice : Nat
  duration : Nat
  startAt : Nat
  state : StoredState
  deriving DecidableEq, Repr

/-- Modelled from the spec: the AssetRegistry capability surface of §4.3,
missing from src/ (only the abstract `NFTType` with `ownerOf`/`getApproved`
is there): asset-id → owner and asset-id → approved operator. -/
structure AssetRegistry where
  owner : Nat → Nat
  approved : Nat → Option Nat

/-- Modelled from the spec: construction (§4.1 `construct`, `deploy` in
src/scripts/definitions.py), with the parameter order of `deploy` there
plus the engine's own identity `addr`.  Validation failures are checked in
the order the spec lists them (`InvalidPrice`, `InvalidDuration`,
`InvalidReserve`); no side effect touches any registry. -/
def deploy (start_price reserve_price dur nftRef assetId addr sellerId : Nat) :
    Except AuctionError DutchAuction :=
  if start_price = 0 then .error .InvalidPrice
  else if dur < 60 then .error .InvalidDuration
  else if start_price ≤ reserve_price then .error .InvalidReserve
  else .ok { nft := nftRef, nftId := assetId, seller := sellerId, addr := addr,
             startingPrice := start_price, reservePrice := reserve_price,
             duration := dur, startAt := 0, state := .Created }

/-- Modelled from the spec: the pure price function of §4.2,
`floor((starting_price * duration - (starting_price - reserve_price) * elapsed) / duration)`
over unbounded integers (the arguments are unbounded `Nat`, so the width
requirement of §4.2 is met by construction). -/
def price (elapsed dur startP reserveP : Nat) : Nat :=
  (startP * dur - (startP - reserveP) * elapsed) / dur

/-- Modelled from the spec: the internal helper `currentState(now)` of
§4.1, deriving the effective lifecycle without mutating stored state. -/
def DutchAuction.currentState (a : DutchAuction) (now : Nat) : EffState :=
  match a.state with
  | .Created => .Created
  | .Settled => .Settled
  | .Live => if a.duration ≤ now - a.startAt then .Ended else .Live

/-- Modelled from the spec: `getPrice(now)` of §4.1 with its three state
guards, delegating to the price calculator with
`elapsed = now - start_time`. -/
def DutchAuction.getPrice (a : DutchAuction) (now : Nat) : Except AuctionError Nat :=
  match a.currentState now with
  | .Created => .error .NotLive
  | .Ended => .error .AuctionOver
  | .Settled => .error .AlreadySettled
  | .Live => .ok (price (now - a.startAt) a.duration a.startingPrice a.reservePrice)

/-- Modelled from the spec: `auctionAge(now)` of §4.1, same state-guard
rules as `getPrice`, returning the integer elapsed time. -/
def DutchAuction.auctionAge (a : DutchAuction) (now : Nat) : Except AuctionError Nat :=
  match a.currentState now with
  | .Created => .error .NotLive
  | .Ended => .error .AuctionOver
  | .Settled => .error .AlreadySettled
  | .Live => .ok (now - a.startAt)

/-- Modelled from the spec: the `auctionGreenlit` getter of §6, true iff
the state is `Live` or past (`start_time` has been set). -/
def DutchAuction.auctionGreenlit (a : DutchAuction) : Bool :=
  match a.state with
  | .Created => false
  | _ => true

/-- Modelled from the spec: the `paused` getter of §6, true iff the state
is `Settled`. -/
def DutchAuction.paused (a : DutchAuction) : Bool :=
  match a.state with
  | .Settled => true
  | _ => false

/-- Modelled from the spec: `startAuction(caller)` of §4.1 with its three
guards, in the spec's order; on success it records `start_time = now` and
sets the state to `Live`. -/
def DutchAuction.startAuction (a : DutchAuction) (reg : AssetRegistry)
    (caller now : Nat) : Except AuctionError DutchAuction :=
  if caller ≠ a.seller then .error .NotOwner
  else if a.state ≠ .Created then .error .AlreadyStarted
  else if reg.approved a.nftId ≠ some a.addr then .error .ApprovalMissing
  else .ok { a with startAt := now, state := .Live }

/-- Modelled from the spec: `transferValue(from, to, amount)` of §4.4 on a
balance ledger (balances are `Int` so that flows are exact). -/
def transferValue (bal : Nat → Int) (src dst : Nat) (amt : Nat) : Nat → Int :=
  fun x => (if x = src then bal x - amt else bal x) + (if x = dst then (amt : Int) else 0)

/-- Modelled from the spec: `transferOwnership(asset_id, from, to)` of
§4.3, the only way the engine mutates ownership. -/
def transferOwnership (reg : AssetRegistry) (assetId newOwner : Nat) : AssetRegistry :=
  { reg with owner := fun i => if i = assetId then newOwner else reg.owner i }

/-- Modelled from the spec: the world a `buy` call acts on — the auction,
the registry it settles against, and the value ledger. -/
structure World where
  auction : DutchAuction
  registry : AssetRegistry
  balances : Nat → Int

/-- Modelled from the spec: the amounts moved by one settlement, reported
by the SettlementExecutor of §4.4 (`paid` to the seller, `refunded` back
to the caller). -/
structure Settlement where
  paid : Nat
  refunded : Nat
  deriving DecidableEq, Repr

/-- Modelled from the spec: `buy(caller, amount, now)` of §4.1.  State
guards are identical to `getPrice`; `InsufficientPayment` if
`amount < price`.  On success the attached `amount` moves from the caller
to the engine, the engine forwards `price` to the seller and refunds
`amount - price` to the caller (the atomic three-part settlement of §4.1),
ownership of the asset moves to the caller, and the state becomes
`Settled`.  Failure returns an error and (the model being pure) leaves the
world untouched — the no-partial-commit policy of §7. -/
def buy (w : World) (caller amount now : Nat) :
    Except AuctionError (World × Settlement) :=
  match w.auction.currentState now with
  | .Created => .error .NotLive
  | .Ended => .error .AuctionOver
  | .Settled => .error .AlreadySettled
  | .Live =>
    let p := price (now - w.auction.startAt) w.auction.duration
      w.auction.startingPrice w.auction.reservePrice
    if amount < p then .error .InsufficientPayment
    else
      let bal0 := transferValue w.balances caller w.auction.addr amount
      let bal1 := transferValue bal0 w.auction.addr w.auction.seller p
      let bal2 := transferValue bal1 w.auction.addr caller (amount - p)
      .ok ({ auction := { w.auction with state := .Settled },
             registry := transferOwnership w.registry w.auction.nftId caller,
             balances := bal2 },
           { paid := p, refunded := amount - p })

/-- Concrete example ledger: every identity holds 1000000 units. -/
def balEx : Nat → Int := fun _ => 1000000

/-- Concrete example registry with no approved operator. -/
def regEmptyEx : AssetRegistry := { owner := fun _ => 0, approved := fun _ => none }

/-- Concrete example registry that approves the engine (identity 2) as the
operator for asset 123. -/
def regApprovedEx : AssetRegistry :=
  { owner := fun _ => 0, approved := fun i => if i = 123 then some 2 else none }

/-- Concrete example auction, freshly constructed with the Scenario A/B
parameters (5000, 3000, 500). -/
def aCreatedEx : DutchAuction :=
  { nft := 7, nftId := 123, seller := 0, addr := 2, startingPrice := 5000,
    reservePrice := 3000, duration := 500, startAt := 0, state := .Created }

/-- Concrete example auction, started at time 10. -/
def aLiveEx : DutchAuction := { aCreatedEx with startAt := 10, state := .Live }

/-- Concrete example world around `aLiveEx`. -/
def wEx : World := { auction := aLiveEx, registry := regApprovedEx, balances := balEx }

/-- Helper: a stored-`Created` auction is effectively `Created`. -/
lemma currentState_created (a : DutchAuction) (now : Nat) (h : a.state = .Created) :
    a.currentState now = .Created := by
  simp [DutchAuction.currentState, h]

/-- Helper: a stored-`Live` auction whose duration has elapsed is
effectively `Ended`. -/
lemma currentState_over (a : DutchAuction) (now : Nat) (h : a.state = .Live)
    (hd : a.duration ≤ now - a.startAt) : a.currentState now = .Ended := by
  simp [DutchAuction.currentState, h, hd]

/-- Helper: a stored-`Live` auction inside its duration window is
effectively `Live`. -/
lemma currentState_live (a : DutchAuction) (now : Nat) (h : a.state = .Live)
    (hd : now - a.startAt < a.duration) : a.currentState now = .Live := by
  simp [DutchAuction.currentState, h, Nat.not_le.mpr hd]

/-- Helper: the subtrahend of the price numerator never exceeds the
minuend while `elapsed ≤ duration`, so `Nat` subtraction is exact. -/
lemma price_num_le (S R D t : Nat) (hR : R ≤ S) (ht : t ≤ D) :
    (S - R) * t ≤ S * D :=
  Nat.mul_le_mul (Nat.sub_le S R) ht

/-- Helper: the `Nat` price agrees with the same formula computed over the
unbounded integers, floor division included. -/
lemma price_int_eq (S R D t : Nat) (hR : R ≤ S) (ht : t ≤ D) :
    (price t D S R : Int) = ((S : Int) * D - ((S : Int) - R) * t) / D := by
  rw [price, Int.natCast_div, Nat.cast_sub (price_num_le S R D t hR ht),
    Nat.cast_mul, Nat.cast_mul, Nat.cast_sub hR]

/-- Helper: the price at elapsed time zero is the starting price. -/
lemma price_zero (S R D : Nat) (hD : 0 < D) : price 0 D S R = S := by
  rw [price, Nat.mul_zero, Nat.sub_zero, Nat.mul_div_cancel _ hD]

/-- Helper: the price at the full duration is the reserve price. -/
lemma price_duration (S R D : Nat) (hR : R ≤ S) (hD : 0 < D) :
    price D D S R = R := by
  have h : S * D - (S - R) * D = R * D := by
    rw [← Nat.sub_mul, Nat.sub_sub_self hR]
  rw [price, h, Nat.mul_div_cancel _ hD]

/-- Helper: the price is non-increasing in elapsed time. -/
lemma price_antitone (S R D t1 t2 : Nat) (h12 : t1 ≤ t2) :
    price t2 D S R ≤ price t1 D S R :=
  Nat.div_le_div_right
    (Nat.sub_le_sub_left (Nat.mul_le_mul (Nat.le_refl (S - R)) h12) (S * D))

/-- C8: for every valid parameter set (`0 < S`, `R < S`, `60 ≤ D`) and all
times `t1 < t2 < D`, the price function is monotonically non-increasing
(`price t2 ≤ price t1`); moreover `price 0 = S` and `price D = R`
exactly. -/
theorem price_monotone_and_boundaries (S R D t1 t2 : Nat)
    (hS : 0 < S) (hR : R < S) (hD : 60 ≤ D) (h12 : t1 < t2) (h2 : t2 < D) :
    price t2 D S R ≤ price t1 D S R ∧
    price 0 D S R = S ∧ price D D S R = R := by
  have hD0 : 0 < D := by omega
  exact ⟨price_antitone S R D t1 t2 (Nat.le_of_lt h12),
    price_zero S R D hD0, price_duration S R D (Nat.le_of_lt hR) hD0⟩

/-- Witness for C8 at `S = 5000`, `R = 3000`, `D = 500`, `t1 = 100`,
`t2 = 250`. -/
theorem price_monotone_and_boundaries_witness :
    price 250 500 5000 3000 ≤ price 100 500 5000 3000 ∧
    price 0 500 5000 3000 = 5000 ∧ price 500 500 5000 3000 = 3000 :=
  price_monotone_and_boundaries 5000 3000 500 100 250 (by decide) (by decide)
    (by decide) (by decide) (by decide)

/-- C2: for every stored-`Live` auction with valid parameters
(`0 < S`, `R < S`, `60 ≤ D`) and any call time `now` with elapsed time
`t = now - startAt` satisfying `t < D`, `getPrice` returns exactly
`floor((S * D - (S - R) * t) / D)`; the returned `Nat` value equals the
same formula evaluated over the unbounded integers (no intermediate
truncation or overflow), and at `t = 0` it equals `S`. -/
theorem getPrice_formula (a : DutchAuction) (now : Nat)
    (hst : a.state = .Live)
    (hS : 0 < a.startingPrice) (hR : a.reservePrice < a.startingPrice)
    (hD : 60 ≤ a.duration) (ht : now - a.startAt < a.duration) :
    a.getPrice now =
      .ok (price (now - a.startAt) a.duration a.startingPrice a.reservePrice) ∧
    ((price (now - a.startAt) a.duration a.startingPrice a.reservePrice : Int) =
      ((a.startingPrice : Int) * a.duration -
        ((a.startingPrice : Int) - a.reservePrice) * ((now - a.startAt : Nat) : Int)) /
        a.duration) ∧
    (now - a.startAt = 0 →
      a.getPrice now = .ok a.startingPrice) := by
  have hlive : a.currentState now = .Live := by
    rw [DutchAuction.currentState, hst]
    simp only [if_neg (by omega : ¬ a.duration ≤ now - a.startAt)]
  have hget : a.getPrice now =
      .ok (price (now - a.startAt) a.duration a.startingPrice a.reservePrice) := by
    rw [DutchAuction.getPrice, hlive]
  refine ⟨hget, ?_, ?_⟩
  · rw [price_int_eq _ _ _ _ (Nat.le_of_lt hR) (Nat.le_of_lt ht)]
  · intro h0
    rw [hget, h0, price_zero _ _ _ (by omega)]

/-- Witness for C2: the Scenario B auction (`S = 5000`, `R = 3000`,
`D = 500`) started at time 10, queried at time 260 (elapsed 250), returns
4000; and the same auction queried at its start time returns 5000. -/
theorem getPrice_formula_witness :
    ({ nft := 7, nftId := 123, seller := 0, addr := 2, startingPrice := 5000,
       reservePrice := 3000, duration := 500, startAt := 10,
       state := .Live } : DutchAuction).getPrice 260 = .ok 4000 ∧
    ({ nft := 7, nftId := 123, seller := 0, addr := 2, startingPrice := 5000,
       reservePrice := 3000, duration := 500, startAt := 10,
       state := .Live } : DutchAuction).getPrice 10 = .ok 5000 := by
  constructor
  · have h := (getPrice_formula
      { nft := 7, nftId := 123, seller := 0, addr := 2, startingPrice := 5000,
        reservePrice := 3000, duration := 500, startAt := 10, state := .Live }
      260 rfl (by decide) (by decide) (by decide) (by decide)).1
    rw [h]; rfl
  · exact (getPrice_formula
      { nft := 7, nftId := 123, seller := 0, addr := 2, startingPrice := 5000,
        reservePrice := 3000, duration := 500, startAt := 10, state := .Live }
      10 rfl (by decide) (by decide) (by decide) (by decide)).2.2 (by decide)

/-- C4 counterexample: when `starting_price = 0` coincides with
`duration = 59 < 60`, construction fails with `InvalidPrice`, not with
`InvalidDuration` as the claim states for every duration below 60. -/
theorem deploy_duration_cex :
    deploy 0 0 59 7 123 2 0 = .error .InvalidPrice ∧
    AuctionError.InvalidPrice ≠ AuctionError.InvalidDuration :=
  ⟨rfl, by decide⟩

/-- C4 (amended): construction fails with `InvalidPrice` whenever
`starting_price = 0`; with `InvalidDuration` whenever `starting_price > 0`
and `duration < 60`; with `InvalidReserve` whenever `starting_price > 0`,
`duration ≥ 60` and `reserve_price ≥ starting_price`; and succeeds —
producing the auction in state `Created`, with `startAt = 0` and no
registry side effect (`deploy` consults no registry) — exactly when
`duration ≥ 60`, `starting_price > 0` and `reserve_price <
starting_price`.  The zero-starting-price check takes precedence over the
duration check, which takes precedence over the reserve check. -/
theorem deploy_validation (sp rp dur nftRef assetId addr sellerId : Nat) :
    (sp = 0 → deploy sp rp dur nftRef assetId addr sellerId = .error .InvalidPrice) ∧
    (0 < sp → dur < 60 →
      deploy sp rp dur nftRef assetId addr sellerId = .error .InvalidDuration) ∧
    (0 < sp → 60 ≤ dur → sp ≤ rp →
      deploy sp rp dur nftRef assetId addr sellerId = .error .InvalidReserve) ∧
    (0 < sp → 60 ≤ dur → rp < sp →
      deploy sp rp dur nftRef assetId addr sellerId =
        .ok { nft := nftRef, nftId := assetId, seller := sellerId, addr := addr,
              startingPrice := sp, reservePrice := rp, duration := dur,
              startAt := 0, state := .Created }) := by
  refine ⟨?_, ?_, ?_, ?_⟩
  · intro h
    rw [deploy, if_pos h]
  · intro h1 h2
    rw [deploy, if_neg (by omega), if_pos h2]
  · intro h1 h2 h3
    rw [deploy, if_neg (by omega), if_neg (by omega), if_pos h3]
  · intro h1 h2 h3
    rw [deploy, if_neg (by omega), if_neg (by omega), if_neg (by omega)]

/-- Witness for C4 exercising every branch: zero starting price, short
duration, reserve at least the starting price, and a valid construction
(Scenario C's `duration = 59` failure among them). -/
theorem deploy_validation_witness :
    deploy 0 0 500 7 123 2 0 = .error .InvalidPrice ∧
    deploy 50 10 59 7 123 2 0 = .error .InvalidDuration ∧
    deploy 10 20 500 7 123 2 0 = .error .InvalidReserve ∧
    deploy 5000 3000 500 7 123 2 0 = .ok aCreatedEx :=
  ⟨(deploy_validation 0 0 500 7 123 2 0).1 rfl,
   (deploy_validation 50 10 59 7 123 2 0).2.1 (by decide) (by decide),
   (deploy_validation 10 20 500 7 123 2 0).2.2.1 (by decide) (by decide) (by decide),
   (deploy_validation 5000 3000 500 7 123 2 0).2.2.2 (by decide) (by decide) (by decide)⟩

/-- C10: when both the zero-starting-price rule and the
reserve-not-below-starting rule are violated at once
(`starting_price = reserve_price = 0`, valid duration), construction
fails with `InvalidPrice`, not with `InvalidReserve`. -/
theorem deploy_price_precedence (dur nftRef assetId addr sellerId : Nat)
    (hdur : 60 ≤ dur) :
    deploy 0 0 dur nftRef assetId addr sellerId = .error .InvalidPrice ∧
    AuctionError.InvalidPrice ≠ AuctionError.InvalidReserve :=
  ⟨by rw [deploy, if_pos rfl], by decide⟩

/-- Witness for C10 at `duration = 500` (the input of
`test_create_raises_price_positive`). -/
theorem deploy_price_precedence_witness :
    deploy 0 0 500 9 123 2 0 = .error .InvalidPrice ∧
    AuctionError.InvalidPrice ≠ AuctionError.InvalidReserve :=
  deploy_price_precedence 500 9 123 2 0 (by decide)

/-- C5: `getPrice`, `auctionAge` and `buy` obey the same effective-state
guards: in stored state `Created` (started or approved or not, since none
of them consults the registry) all three fail with `NotLive`; once started
(stored `Live`, no sale) with `now - startAt ≥ duration` all three fail
with `AuctionOver`; and inside the `Live` window `auctionAge` returns the
integer elapsed time `now - startAt`. -/
theorem read_buy_guards (a : DutchAuction) (now : Nat) :
    (a.state = .Created →
      a.getPrice now = .error .NotLive ∧
      a.auctionAge now = .error .NotLive ∧
      ∀ reg bal caller amount,
        buy ⟨a, reg, bal⟩ caller amount now = .error .NotLive) ∧
    (a.state = .Live → a.duration ≤ now - a.startAt →
      a.getPrice now = .error .AuctionOver ∧
      a.auctionAge now = .error .AuctionOver ∧
      ∀ reg bal caller amount,
        buy ⟨a, reg, bal⟩ caller amount now = .error .AuctionOver) ∧
    (a.state = .Live → now - a.startAt < a.duration →
      a.auctionAge now = .ok (now - a.startAt)) := by
  refine ⟨?_, ?_, ?_⟩
  · intro h
    have hc := currentState_created a now h
    exact ⟨by rw [DutchAuction.getPrice, hc], by rw [DutchAuction.auctionAge, hc],
      fun reg bal caller amount => by simp [buy, hc]⟩
  · intro h hd
    have hc := currentState_over a now h hd
    exact ⟨by rw [DutchAuction.getPrice, hc], by rw [DutchAuction.auctionAge, hc],
      fun reg bal caller amount => by simp [buy, hc]⟩
  · intro h hd
    have hc := currentState_live a now h hd
    rw [DutchAuction.auctionAge, hc]

/-- Witness for C5: the Scenario A auction before start, the started
auction queried 600 units after start (duration 500), and the started
auction queried 20 units after start. -/
theorem read_buy_guards_witness :
    (aCreatedEx.getPrice 50 = .error .NotLive ∧
      aCreatedEx.auctionAge 50 = .error .NotLive ∧
      buy ⟨aCreatedEx, regEmptyEx, balEx⟩ 1 999999 50 = .error .NotLive) ∧
    (aLiveEx.getPrice 610 = .error .AuctionOver ∧
      aLiveEx.auctionAge 610 = .error .AuctionOver ∧
      buy ⟨aLiveEx, regApprovedEx, balEx⟩ 1 999999 610 = .error .AuctionOver) ∧
    aLiveEx.auctionAge 30 = .ok 20 := by
  refine ⟨?_, ?_, ?_⟩
  · have h := (read_buy_guards aCreatedEx 50).1 rfl
    exact ⟨h.1, h.2.1, h.2.2 regEmptyEx balEx 1 999999⟩
  · have h := (read_buy_guards aLiveEx 610).2.1 rfl (by decide)
    exact ⟨h.1, h.2.1, h.2.2 regApprovedEx balEx 1 999999⟩
  · exact (read_buy_guards aLiveEx 30).2.2 rfl (by decide)

/-- C6: on a `Created` auction, `startAuction` fails with `NotOwner` for a
caller other than the seller; fails with `ApprovalMissing` when the seller
calls but the registry does not report the engine as the approved operator
for the asset; and when the seller calls with the approval in place it
succeeds, recording `startAt = now`, moving the state to `Live`, and
making `auctionGreenlit` report true. -/
theorem startAuction_guards (a : DutchAuction) (reg : AssetRegistry)
    (caller now : Nat) (hst : a.state = .Created) :
    (caller ≠ a.seller → a.startAuction reg caller now = .error .NotOwner) ∧
    (reg.approved a.nftId ≠ some a.addr →
      a.startAuction reg a.seller now = .error .ApprovalMissing) ∧
    (reg.approved a.nftId = some a.addr →
      ∃ a', a.startAuction reg a.seller now = .ok a' ∧
        a'.startAt = now ∧ a'.state = .Live ∧ a'.auctionGreenlit = true) := by
  refine ⟨?_, ?_, ?_⟩
  · intro h
    rw [DutchAuction.startAuction, if_pos h]
  · intro h
    rw [DutchAuction.startAuction, if_neg (by simp), if_neg (by simp [hst]),
      if_pos h]
  · intro h
    refine ⟨{ a with startAt := now, state := .Live }, ?_, rfl, rfl, rfl⟩
    rw [DutchAuction.startAuction, if_neg (by simp), if_neg (by simp [hst]),
      if_neg (by simp [h])]

/-- Witness for C6: the Scenario A auction (seller 0, engine 2, asset
123), called by the non-seller 1, by the seller without approval, and by
the seller with the approval recorded. -/
theorem startAuction_guards_witness :
    aCreatedEx.startAuction regEmptyEx 1 50 = .error .NotOwner ∧
    aCreatedEx.startAuction regEmptyEx 0 50 = .error .ApprovalMissing ∧
    ∃ a', aCreatedEx.startAuction regApprovedEx 0 50 = .ok a' ∧
      a'.startAt = 50 ∧ a'.state = .Live ∧ a'.auctionGreenlit = true :=
  ⟨(startAuction_guards aCreatedEx regEmptyEx 1 50 rfl).1 (by decide),
   (startAuction_guards aCreatedEx regEmptyEx 0 50 rfl).2.1 (by decide),
   (startAuction_guards aCreatedEx regApprovedEx 0 50 rfl).2.2 (by decide)⟩

/-- C9: once `startAuction` has succeeded, a second `startAuction` by the
seller fails with `AlreadyStarted`, whatever the registry contents and
however much time has passed (even past the auction's duration); the model
being pure, the failing call returns only the error and leaves the stored
auction untouched. -/
theorem startAuction_twice (a a' : DutchAuction) (reg reg' : AssetRegistry)
    (caller now now' : Nat)
    (h : a.startAuction reg caller now = .ok a') :
    a'.startAuction reg' a.seller now' = .error .AlreadyStarted := by
  rw [DutchAuction.startAuction] at h
  split_ifs at h with h1 h2 h3
  simp only [Except.ok.injEq] at h
  subst h
  simp [DutchAuction.startAuction]

/-- Witness for C9: the Scenario A auction started at time 20, restarted
by the seller at time 1000 (past its 500-unit duration). -/
theorem startAuction_twice_witness :
    DutchAuction.startAuction { aCreatedEx with startAt := 20, state := .Live }
      regEmptyEx 0 1000 = .error .AlreadyStarted :=
  startAuction_twice aCreatedEx
    { aCreatedEx with startAt := 20, state := .Live }
    regApprovedEx regEmptyEx 0 20 1000 rfl

/-- C1: on an effectively `Live` auction, `buy` by a caller distinct from
the seller and the engine, with `amount` at least the current price,
succeeds: the settlement pays exactly the current price, refunds exactly
`amount - price` (so the caller's net spend is the price: the ledger shows
the caller down by exactly the price), the asset's registry owner becomes
the caller, and `paused` reports true afterwards (state `Settled`). -/
theorem buy_success (w : World) (caller amount now : Nat)
    (hlive : w.auction.currentState now = .Live)
    (hpay : price (now - w.auction.startAt) w.auction.duration
      w.auction.startingPrice w.auction.reservePrice ≤ amount)
    (hcs : caller ≠ w.auction.seller) (hca : caller ≠ w.auction.addr) :
    ∃ w' s, buy w caller amount now = .ok (w', s) ∧
      s.paid = price (now - w.auction.startAt) w.auction.duration
        w.auction.startingPrice w.auction.reservePrice ∧
      s.refunded = amount - s.paid ∧
      w'.balances caller = w.balances caller - s.paid ∧
      w'.registry.owner w.auction.nftId = caller ∧
      w'.auction.paused = true := by
  set p := price (now - w.auction.startAt) w.auction.duration
    w.auction.startingPrice w.auction.reservePrice with hp
  have hb : buy w caller amount now =
      .ok ({ auction := { w.auction with state := .Settled },
             registry := transferOwnership w.registry w.auction.nftId caller,
             balances := transferValue (transferValue (transferValue w.balances
               caller w.auction.addr amount) w.auction.addr w.auction.seller p)
               w.auction.addr caller (amount - p) },
           { paid := p, refunded := amount - p }) := by
    rw [buy, hlive, if_neg (Nat.not_lt.mpr hpay)]
  refine ⟨_, _, hb, rfl, rfl, ?_, ?_, rfl⟩
  · simp only [transferValue, hca, hcs, if_false, if_pos rfl, ite_false,
      ite_true, add_zero]
    omega
  · simp [transferOwnership]

/-- Witness for C1: the started Scenario A auction (price 4960 at elapsed
10), bought by identity 1 with amount 999999 attached: 995039 is refunded,
the buyer's ledger entry drops by exactly 4960, ownership of asset 123
moves to identity 1, and the auction pauses. -/
theorem buy_success_witness :
    ∃ w' s, buy wEx 1 999999 20 = .ok (w', s) ∧
      s.paid = price (20 - wEx.auction.startAt) wEx.auction.duration
        wEx.auction.startingPrice wEx.auction.reservePrice ∧
      s.refunded = 999999 - s.paid ∧
      w'.balances 1 = wEx.balances 1 - s.paid ∧
      w'.registry.owner wEx.auction.nftId = 1 ∧
      w'.auction.paused = true :=
  buy_success wEx 1 999999 20 (by decide) (by decide) (by decide) (by decide)

/-- C3: on an effectively `Live` auction, `buy` with `amount` strictly
below the current price fails with `InsufficientPayment`; the model being
pure, the error return carries no new world, so the auction remains
`Live`, the ledger is untouched (no value leaves the caller) and the
registry owner is unchanged. -/
theorem buy_insufficient (w : World) (caller amount now : Nat)
    (hlive : w.auction.currentState now = .Live)
    (hlt : amount < price (now - w.auction.startAt) w.auction.duration
      w.auction.startingPrice w.auction.reservePrice) :
    buy w caller amount now = .error .InsufficientPayment := by
  rw [buy, hlive, if_pos hlt]

/-- Witness for C3: the started Scenario A auction at elapsed 10 (price
4960), offered only 4464 (90 percent of the price, as in
`test_buy_fails_not_enough_eth`). -/
theorem buy_insufficient_witness :
    buy wEx 1 4464 20 = .error .InsufficientPayment :=
  buy_insufficient wEx 1 4464 20 (by decide) (by decide)

/-- C7: a successful `buy` leaves the auction terminally `Settled`:
`paused` reports true, and every subsequent `getPrice` or `buy`, at any
later time, by any caller and amount, fails with `AlreadySettled` (never
with `AuctionOver`, and never returning a price). -/
theorem buy_settles_terminally (w : World) (caller amount now : Nat)
    (w' : World) (s : Settlement)
    (h : buy w caller amount now = .ok (w', s)) :
    w'.auction.paused = true ∧
    ∀ now' caller' amount',
      w'.auction.getPrice now' = .error .AlreadySettled ∧
      buy w' caller' amount' now' = .error .AlreadySettled := by
  have hset : w'.auction.state = .Settled := by
    rcases hcs : w.auction.currentState now with _ | _ | _ | _ <;>
      simp only [buy, hcs] at h
    · exact absurd h (by simp)
    · split_ifs at h with hlt
      simp only [Except.ok.injEq, Prod.mk.injEq] at h
      rw [← h.1]
    · exact absurd h (by simp)
    · exact absurd h (by simp)
  refine ⟨by simp [DutchAuction.paused, hset], fun now' caller' amount' => ?_⟩
  have hc : w'.auction.currentState now' = .Settled := by
    simp [DutchAuction.currentState, hset]
  exact ⟨by rw [DutchAuction.getPrice, hc], by rw [buy, hc]⟩

/-- Witness for C7: after identity 1 buys the started Scenario A auction
(buying at elapsed 10 for 4960 with 999999 attached), `paused` is true and
a later `getPrice`/`buy` at time 1000 fail with `AlreadySettled`. -/
theorem buy_settles_terminally_witness :
    ({ auction := { aLiveEx with state := .Settled },
       registry := transferOwnership regApprovedEx 123 1,
       balances := transferValue (transferValue (transferValue balEx 1 2 999999)
         2 0 4960) 2 1 995039 } : World).auction.paused = true ∧
    ({ auction := { aLiveEx with state := .Settled },
       registry := transferOwnership regApprovedEx 123 1,
       balances := transferValue (transferValue (transferValue balEx 1 2 999999)
         2 0 4960) 2 1 995039 } : World).auction.getPrice 1000 =
      .error .AlreadySettled ∧
    buy { auction := { aLiveEx with state := .Settled },
          registry := transferOwnership regApprovedEx 123 1,
          balances := transferValue (transferValue (transferValue balEx 1 2 999999)
            2 0 4960) 2 1 995039 } 3 999999 1000 = .error .AlreadySettled := by
  have h := buy_settles_terminally wEx 1 999999 20
    { auction := { aLiveEx with state := .Settled },
      registry := transferOwnership regApprovedEx 123 1,
      balances := transferValue (transferValue (transferValue balEx 1 2 999999)
        2 0 4960) 2 1 995039 }
    { paid := 4960, refunded := 995039 } rfl
  exact ⟨h.1, (h.2 1000 3 999999).1, (h.2 1000 3 999999).2⟩

end EthAuction
